import Mathlib

/-!
Shallow embedding of the winsnow snow-wallpaper simulation (winsnow.go).

Modelling choices:
* Go `float64` values are embedded as exact rationals `ℚ`; every arithmetic
  operation in the source (`+`, `*`, `/`, comparisons) is mapped to the
  corresponding exact operation on `ℚ`.
* Go `int` screen dimensions are embedded as `ℤ`, cast to `ℚ` exactly where
  the source writes `float64(...)`.
* `rand.Float64()` draws are embedded as an explicit stream `rng : ℕ → ℚ`
  consumed left to right; a value drawn by the code at its `k`-th call to
  `r.Float64()` within one function body is `rng k` (particle updates thread
  an explicit position through the stream, since draws are conditional).
  The source creates a fresh generator in `Initialize` and a fresh generator
  on every `Update` call, so `Initialize` takes one stream and each `Update`
  call takes its own stream starting at position 0.
* The Win32 calls of `SetWindowToBottom` are embedded as a pure function
  from the lookup results (`FindWindowW` by title, by class, and
  `GetForegroundWindow`) to the list of `SetWindowPos` calls it issues.
-/

/-- One snow particle, mirroring `type Snowflake struct` (fields `x`, `y`,
`size`, `speed`, `drift`, `windSpeed`). -/
structure Snowflake where
  x : ℚ
  y : ℚ
  size : ℚ
  speed : ℚ
  drift : ℚ
  windSpeed : ℚ
deriving DecidableEq, Repr

/-- The game state, mirroring `type Game struct` (fields `snowflakes`,
`screenWidth`, `screenHeight`, `wind`, `windTarget`, `windChangeTime`). -/
structure Game where
  snowflakes : List Snowflake
  screenWidth : ℤ
  screenHeight : ℤ
  wind : ℚ
  windTarget : ℚ
  windChangeTime : ℚ
deriving DecidableEq, Repr

/-- `numSnowflakes = 300` from the constant block. -/
def numSnowflakes : ℕ := 300

/-- The `i`-th snowflake built by the loop body of `Game.Initialize`:
`x = r.Float64()*w`, `y = r.Float64()*h`, `size = 1.0 + r.Float64()*3.0`,
`speed = 6.0 + r.Float64()*10.0`, `drift = 0` (and the `windSpeed` field is
left at its zero value).  The four draws of particle `i` are the stream
values at positions `4*i .. 4*i+3`. -/
def mkFlake (w h : ℤ) (rng : ℕ → ℚ) (i : ℕ) : Snowflake :=
  ⟨rng (4 * i) * (w : ℚ), rng (4 * i + 1) * (h : ℚ),
   1 + rng (4 * i + 2) * 3, 6 + rng (4 * i + 3) * 10, 0, 0⟩

/-- `Game.Initialize`: wind state zeroed, `numSnowflakes` particles created
from the random stream, screen dimensions recorded. -/
def Game.initializeGame (w h : ℤ) (rng : ℕ → ℚ) : Game :=
  ⟨(List.range numSnowflakes).map (mkFlake w h rng), w, h, 0, 0, 0⟩

/-- The per-particle body of the `for` loop in `Game.Update`, acting on one
snowflake with the already-updated wind value `wind`.  `pos` is the current
read position in the random stream; a recycled particle consumes one draw
for its new `x`.  Mirrors, in order: `x += wind/size`, `y += speed`,
the vertical recycle (`y > height` resets `y` to `0` and redraws `x`), then
the horizontal wrap (`x < 0` sets `x` to `width`, `x > width` sets `x` to
`0`). -/
def moveFlake (w h : ℤ) (wind : ℚ) (rng : ℕ → ℚ) (f : Snowflake) (pos : ℕ) :
    Snowflake × ℕ :=
  let x1 := f.x + wind / f.size
  let y1 := f.y + f.speed
  let recycled :=
    if y1 > (h : ℚ) then (rng pos * (w : ℚ), (0 : ℚ), pos + 1) else (x1, y1, pos)
  let x3 :=
    if recycled.1 < 0 then (w : ℚ)
    else if recycled.1 > (w : ℚ) then 0
    else recycled.1
  (⟨x3, recycled.2.1, f.size, f.speed, f.drift, f.windSpeed⟩, recycled.2.2)

/-- The particle loop of `Game.Update`, threading the random-stream position
through the particles in order. -/
def moveFlakes (w h : ℤ) (wind : ℚ) (rng : ℕ → ℚ) :
    List Snowflake → ℕ → List Snowflake × ℕ
  | [], pos => ([], pos)
  | f :: fs, pos =>
    let fp := moveFlake w h wind rng f pos
    let rest := moveFlakes w h wind rng fs fp.2
    (fp.1 :: rest.1, rest.2)

/-- `Game.Update`.  In source order: `windChangeTime -= 1.0`; if the result
is `≤ 0`, draw `windTarget = (r.Float64()*2 - 1.0) * 0.8` and
`windChangeTime = 60 + r.Float64()*120` (stream positions 0 and 1, so the
particle loop starts reading the stream at position 2 exactly when the
retarget branch ran, else at 0);
`wind = wind*0.99 + windTarget*0.01`; then the particle loop; finally
`return nil`, embedded as the `none` error component. -/
def Game.update (g : Game) (rng : ℕ → ℚ) : Game × Option String :=
  let t1 := g.windChangeTime - 1
  let target := if t1 ≤ 0 then (rng 0 * 2 - 1) * 0.8 else g.windTarget
  let t2 := if t1 ≤ 0 then 60 + rng 1 * 120 else t1
  let pos0 : ℕ := if t1 ≤ 0 then 2 else 0
  let wind1 := g.wind * 0.99 + target * 0.01
  let mf := moveFlakes g.screenWidth g.screenHeight wind1 rng g.snowflakes pos0
  (⟨mf.1, g.screenWidth, g.screenHeight, wind1, target, t2⟩, none)

/-- `n` consecutive `Update` calls; frame `k` uses its own fresh stream
`rngs k`, mirroring the fresh generator the source seeds on every call. -/
def Game.updateN (g : Game) (rngs : ℕ → ℕ → ℚ) : ℕ → Game
  | 0 => g
  | n + 1 => Game.updateN (g.update (rngs 0)).1 (fun k => rngs (k + 1)) n

/-- The sequence of states produced by `n` consecutive `Update` calls
(state after frame 1, after frame 2, ...). -/
def Game.trajectory (g : Game) (rngs : ℕ → ℕ → ℚ) : ℕ → List Game
  | 0 => []
  | n + 1 =>
    let g1 := (g.update (rngs 0)).1
    g1 :: Game.trajectory g1 (fun k => rngs (k + 1)) n

/-- A random stream all of whose values model `rand.Float64()` outputs,
i.e. lie in `[0, 1)`. -/
def validRng (rng : ℕ → ℚ) : Prop := ∀ i, 0 ≤ rng i ∧ rng i < 1

/-- A per-frame family of valid random streams. -/
def validRngs (rngs : ℕ → ℕ → ℚ) : Prop := ∀ k, validRng (rngs k)

/-- Go `int(q)` conversion from `float64`: truncation toward zero. -/
def goTrunc (q : ℚ) : ℤ := if 0 ≤ q then ⌊q⌋ else ⌈q⌉

/-- The set of offsets `(dx, dy)` lit by the drawing branch of `Game.Draw`
for the (truncated, integer) size `size`: a single pixel when `size ≤ 1`,
otherwise the double loop `dx, dy ∈ [-size/2, size/2]` filtered by
`dx*dx + dy*dy ≤ size*size/4` (Go integer division; for the nonnegative
operands that reach this branch Go's and Lean's `/` on `ℤ` agree). -/
def drawOffsets (size : ℤ) : Finset (ℤ × ℤ) :=
  if size ≤ 1 then {(0, 0)}
  else
    (Finset.Icc (-(size / 2)) (size / 2) ×ˢ
      Finset.Icc (-(size / 2)) (size / 2)).filter
      (fun p => p.1 * p.1 + p.2 * p.2 ≤ size * size / 4)

/-- The set of pixels `Game.Draw` lights for one snowflake: the offsets for
its truncated size, translated to its integer-truncated position. -/
def drawFlake (f : Snowflake) : Finset (ℤ × ℤ) :=
  (drawOffsets (goTrunc f.size)).image
    (fun p => (goTrunc f.x + p.1, goTrunc f.y + p.2))

/-- Window-positioning constants from the source's constant block. -/
def HWND_BOTTOM : ℤ := 1

def SWP_NOMOVE : ℕ := 0x0002

def SWP_NOSIZE : ℕ := 0x0001

def SWP_NOACTIVATE : ℕ := 0x0010

def SWP_SHOWWINDOW : ℕ := 0x0040

/-- One `SetWindowPos` call: target handle, insert-after reference, flags
(the `x`, `y`, `cx`, `cy` arguments are always `0` in the source and are
omitted). -/
structure WinCall where
  hwnd : ℕ
  insertAfter : ℤ
  flags : ℕ
deriving DecidableEq, Repr

/-- `SetWindowToBottom` as a pure function from the results of the three
platform queries (`FindWindowW` by title, `FindWindowW` by class, and
`GetForegroundWindow`, each `0` when not found) to the list of
`SetWindowPos` calls issued, in order.  Mirrors the source: title lookup
with class fallback; return with no calls when both fail; one call putting
the render window at `HWND_BOTTOM` with
`SWP_NOMOVE|SWP_NOSIZE|SWP_NOACTIVATE|SWP_SHOWWINDOW`; then, when the
foreground handle is nonzero and differs from the render window, one call
for it with insert-after `0` and `SWP_NOMOVE|SWP_NOSIZE|SWP_SHOWWINDOW`. -/
def setWindowToBottom (byTitle byClass fg : ℕ) : List WinCall :=
  let hwnd := if byTitle ≠ 0 then byTitle else byClass
  if hwnd = 0 then []
  else
    let first : WinCall :=
      ⟨hwnd, HWND_BOTTOM, SWP_NOMOVE ||| SWP_NOSIZE ||| SWP_NOACTIVATE ||| SWP_SHOWWINDOW⟩
    if fg ≠ 0 ∧ fg ≠ hwnd then
      [first, ⟨fg, 0, SWP_NOMOVE ||| SWP_NOSIZE ||| SWP_SHOWWINDOW⟩]
    else [first]

/-- A particle position lying in the closed box `[0, w] × [0, h]`. -/
def inClosedBox (w h : ℤ) (f : Snowflake) : Prop :=
  0 ≤ f.x ∧ f.x ≤ (w : ℚ) ∧ 0 ≤ f.y ∧ f.y ≤ (h : ℚ)

instance (w h : ℤ) (f : Snowflake) : Decidable (inClosedBox w h f) := by
  unfold inClosedBox; infer_instance

/-- A particle position lying in the half-open box `[0, w) × [0, h)`. -/
def inOpenBox (w h : ℤ) (f : Snowflake) : Prop :=
  0 ≤ f.x ∧ f.x < (w : ℚ) ∧ 0 ≤ f.y ∧ f.y < (h : ℚ)

instance (w h : ℤ) (f : Snowflake) : Decidable (inOpenBox w h f) := by
  unfold inOpenBox; infer_instance

/-- Wind state invariant: both the applied wind and the target lie in
`[-0.8, 0.8]`. -/
def windInv (g : Game) : Prop :=
  -0.8 ≤ g.wind ∧ g.wind ≤ 0.8 ∧ -0.8 ≤ g.windTarget ∧ g.windTarget ≤ 0.8

/-- The wind update of one `advance`, written from the specification's
wording: decrement the countdown by `1.0`; if it is then `≤ 0`, draw a new
target uniformly in `[-0.8, 0.8]` (i.e. `-0.8 + u₁ * 1.6` for `u₁` uniform
in `[0,1)`) and reset the countdown uniformly in `[60, 180)` (i.e.
`60 + u₂ * 120`); then low-pass filter
`current = current*0.99 + target*0.01`.  Returns
`(new current wind, new target, new countdown)`. -/
def windSpecStep (wind target countdown u₁ u₂ : ℚ) : ℚ × ℚ × ℚ :=
  let c1 := countdown - 1
  let tc :=
    if c1 ≤ 0 then (-0.8 + u₁ * 1.6, 60 + u₂ * 120) else (target, c1)
  (wind * 0.99 + tc.1 * 0.01, tc.1, tc.2)

/-! ## Helper lemmas -/

theorem moveFlake_const (w h : ℤ) (wind : ℚ) (rng : ℕ → ℚ) (f : Snowflake)
    (pos : ℕ) :
    (moveFlake w h wind rng f pos).1.size = f.size ∧
    (moveFlake w h wind rng f pos).1.speed = f.speed ∧
    (moveFlake w h wind rng f pos).1.drift = f.drift ∧
    (moveFlake w h wind rng f pos).1.windSpeed = f.windSpeed := by
  simp [moveFlake]

theorem moveFlake_x_bounds (w h : ℤ) (wind : ℚ) (rng : ℕ → ℚ) (f : Snowflake)
    (pos : ℕ) (hw : 0 ≤ w) :
    0 ≤ (moveFlake w h wind rng f pos).1.x ∧
    (moveFlake w h wind rng f pos).1.x ≤ (w : ℚ) := by
  have hwq : (0 : ℚ) ≤ (w : ℚ) := by exact_mod_cast hw
  simp only [moveFlake]
  split_ifs with h1 h2 <;>
    constructor <;> first | exact hwq | exact le_refl _ | linarith

theorem moveFlake_y_bounds (w h : ℤ) (wind : ℚ) (rng : ℕ → ℚ) (f : Snowflake)
    (pos : ℕ) (hh : 0 ≤ h) (hy : 0 ≤ f.y) (hs : 0 ≤ f.speed) :
    0 ≤ (moveFlake w h wind rng f pos).1.y ∧
    (moveFlake w h wind rng f pos).1.y ≤ (h : ℚ) := by
  have hhq : (0 : ℚ) ≤ (h : ℚ) := by exact_mod_cast hh
  simp only [moveFlake]
  split_ifs with h1 <;>
    constructor <;> first | exact hhq | exact le_refl _ | linarith [not_lt.mp h1]

theorem moveFlakes_length (w h : ℤ) (wind : ℚ) (rng : ℕ → ℚ)
    (fs : List Snowflake) (pos : ℕ) :
    (moveFlakes w h wind rng fs pos).1.length = fs.length := by
  induction fs generalizing pos with
  | nil => rfl
  | cons f fs ih => simp [moveFlakes, ih]

theorem moveFlakes_mem (w h : ℤ) (wind : ℚ) (rng : ℕ → ℚ)
    (fs : List Snowflake) (pos : ℕ) :
    ∀ f' ∈ (moveFlakes w h wind rng fs pos).1,
      ∃ f ∈ fs, ∃ p, f' = (moveFlake w h wind rng f p).1 := by
  induction fs generalizing pos with
  | nil => intro f' hf'; simp [moveFlakes] at hf'
  | cons f fs ih =>
    intro f' hf'
    simp only [moveFlakes, List.mem_cons] at hf'
    rcases hf' with hf' | hf'
    · exact ⟨f, List.mem_cons_self _ _, pos, hf'⟩
    · obtain ⟨g, hg, p, hp⟩ := ih _ f' hf'
      exact ⟨g, List.mem_cons_of_mem _ hg, p, hp⟩

theorem moveFlakes_forall₂ (w h : ℤ) (wind : ℚ) (rng : ℕ → ℚ)
    (fs : List Snowflake) (pos : ℕ) :
    List.Forall₂
      (fun a b => b.size = a.size ∧ b.speed = a.speed ∧ b.drift = a.drift)
      fs (moveFlakes w h wind rng fs pos).1 := by
  induction fs generalizing pos with
  | nil => exact List.Forall₂.nil
  | cons f fs ih =>
    exact List.Forall₂.cons
      ⟨(moveFlake_const w h wind rng f pos).1,
       (moveFlake_const w h wind rng f pos).2.1,
       (moveFlake_const w h wind rng f pos).2.2.1⟩ (ih _)

theorem moveFlakes_map_drift (w h : ℤ) (wind : ℚ) (rng : ℕ → ℚ)
    (fs : List Snowflake) (pos : ℕ) :
    (moveFlakes w h wind rng fs pos).1.map Snowflake.drift =
      fs.map Snowflake.drift := by
  induction fs generalizing pos with
  | nil => rfl
  | cons f fs ih =>
    simp [moveFlakes, ih, (moveFlake_const w h wind rng f pos).2.2.1]

theorem update_snowflakes (g : Game) (rng : ℕ → ℚ) :
    (g.update rng).1.snowflakes =
      (moveFlakes g.screenWidth g.screenHeight (g.update rng).1.wind rng
        g.snowflakes (if g.windChangeTime - 1 ≤ 0 then 2 else 0)).1 := rfl

theorem update_dims (g : Game) (rng : ℕ → ℚ) :
    (g.update rng).1.screenWidth = g.screenWidth ∧
    (g.update rng).1.screenHeight = g.screenHeight := ⟨rfl, rfl⟩

theorem half_box_of_sq_le {s a : ℤ} (hs : 2 ≤ s) (ha : a * a ≤ s * s / 4) :
    -(s / 2) ≤ a ∧ a ≤ s / 2 := by
  set k := s / 2 with hk
  have hk1 : 1 ≤ k := by omega
  have hs2 : s ≤ 2 * k + 1 := by omega
  have hs0 : 0 ≤ s := by omega
  have hss : s * s ≤ 4 * (k * k + k) + 1 := by nlinarith
  have ha' : a * a ≤ k * k + k := by
    have h1 : s * s / 4 ≤ (4 * (k * k + k) + 1) / 4 :=
      Int.ediv_le_ediv (by norm_num) hss
    have h2 : (4 * (k * k + k) + 1) / 4 = k * k + k := by
      generalize k * k + k = m
      omega
    linarith
  constructor
  · by_contra hcon
    push_neg at hcon
    have h1 : 0 ≤ -a - (k + 1) := by omega
    have h2 : 0 ≤ -a + (k + 1) := by omega
    nlinarith [mul_nonneg h1 h2]
  · by_contra hcon
    push_neg at hcon
    have h1 : 0 ≤ a - (k + 1) := by omega
    have h2 : 0 ≤ a + (k + 1) := by omega
    nlinarith [mul_nonneg h1 h2]

theorem mem_drawOffsets {s : ℤ} (hs : 2 ≤ s) (p : ℤ × ℤ) :
    p ∈ drawOffsets s ↔ p.1 * p.1 + p.2 * p.2 ≤ s * s / 4 := by
  have hns : ¬ s ≤ 1 := by omega
  simp only [drawOffsets, if_neg hns, Finset.mem_filter, Finset.mem_product,
    Finset.mem_Icc]
  constructor
  · rintro ⟨-, hp⟩; exact hp
  · intro hp
    have h1 : p.1 * p.1 ≤ s * s / 4 := by nlinarith [mul_self_nonneg p.2]
    have h2 : p.2 * p.2 ≤ s * s / 4 := by nlinarith [mul_self_nonneg p.1]
    exact ⟨⟨⟨(half_box_of_sq_le hs h1).1, (half_box_of_sq_le hs h1).2⟩,
      (half_box_of_sq_le hs h2).1, (half_box_of_sq_le hs h2).2⟩, hp⟩

theorem update_windInv (g : Game) (rng : ℕ → ℚ) (hr : validRng rng)
    (hg : windInv g) : windInv (g.update rng).1 := by
  obtain ⟨hw1, hw2, ht1, ht2⟩ := hg
  obtain ⟨hr0, hr1⟩ := hr 0
  simp only [Game.update, windInv]
  split_ifs with hc <;> refine ⟨?_, ?_, ?_, ?_⟩ <;> linarith

theorem initialize_windInv (w h : ℤ) (rng : ℕ → ℚ) :
    windInv (Game.initializeGame w h rng) := by
  simp only [Game.initializeGame, windInv]
  norm_num

theorem updateN_windInv (n : ℕ) :
    ∀ (g : Game) (rngs : ℕ → ℕ → ℚ), validRngs rngs → windInv g →
      windInv (g.updateN rngs n) := by
  induction n with
  | zero => intro g rngs _ hg; exact hg
  | succ n ih =>
    intro g rngs hv hg
    exact ih _ _ (fun k => hv (k + 1)) (update_windInv g (rngs 0) (hv 0) hg)

theorem update_length (g : Game) (rng : ℕ → ℚ) :
    (g.update rng).1.snowflakes.length = g.snowflakes.length := by
  rw [update_snowflakes, moveFlakes_length]

theorem update_map_drift (g : Game) (rng : ℕ → ℚ) :
    (g.update rng).1.snowflakes.map Snowflake.drift =
      g.snowflakes.map Snowflake.drift := by
  rw [update_snowflakes, moveFlakes_map_drift]

theorem updateN_length (n : ℕ) :
    ∀ (g : Game) (rngs : ℕ → ℕ → ℚ),
      (g.updateN rngs n).snowflakes.length = g.snowflakes.length := by
  induction n with
  | zero => intro g rngs; rfl
  | succ n ih =>
    intro g rngs
    rw [Game.updateN, ih, update_length]

theorem updateN_map_drift (n : ℕ) :
    ∀ (g : Game) (rngs : ℕ → ℕ → ℚ),
      (g.updateN rngs n).snowflakes.map Snowflake.drift =
        g.snowflakes.map Snowflake.drift := by
  induction n with
  | zero => intro g rngs; rfl
  | succ n ih =>
    intro g rngs
    rw [Game.updateN, ih, update_map_drift]

theorem initialize_length (w h : ℤ) (rng : ℕ → ℚ) :
    (Game.initializeGame w h rng).snowflakes.length = numSnowflakes := by
  simp [Game.initializeGame]

theorem initialize_map_drift (w h : ℤ) (rng : ℕ → ℚ) :
    (Game.initializeGame w h rng).snowflakes.map Snowflake.drift =
      List.replicate numSnowflakes 0 := by
  simp only [Game.initializeGame, List.map_map]
  have hc : Snowflake.drift ∘ mkFlake w h rng = fun _ : ℕ => (0 : ℚ) :=
    funext fun i => rfl
  rw [hc, List.map_const', List.length_range]

theorem update_box (g : Game) (rng : ℕ → ℚ) (hw : 0 ≤ g.screenWidth)
    (hh : 0 ≤ g.screenHeight)
    (hpre : ∀ f ∈ g.snowflakes, 0 ≤ f.y ∧ 0 ≤ f.speed) :
    ∀ f ∈ (g.update rng).1.snowflakes,
      inClosedBox g.screenWidth g.screenHeight f := by
  intro f' hf'
  rw [update_snowflakes] at hf'
  obtain ⟨f, hf, p, rfl⟩ := moveFlakes_mem _ _ _ _ _ _ f' hf'
  obtain ⟨hy, hs⟩ := hpre f hf
  exact ⟨(moveFlake_x_bounds _ _ _ _ _ _ hw).1,
    (moveFlake_x_bounds _ _ _ _ _ _ hw).2,
    (moveFlake_y_bounds _ _ _ _ _ _ hh hy hs).1,
    (moveFlake_y_bounds _ _ _ _ _ _ hh hy hs).2⟩

theorem trajectory_congr (n : ℕ) :
    ∀ (g : Game) (rngs1 rngs2 : ℕ → ℕ → ℚ),
      (∀ k, k < n → rngs1 k = rngs2 k) →
      g.trajectory rngs1 n = g.trajectory rngs2 n := by
  induction n with
  | zero => intro g r1 r2 _; rfl
  | succ n ih =>
    intro g r1 r2 hagree
    have h0 : r1 0 = r2 0 := hagree 0 (Nat.succ_pos n)
    simp only [Game.trajectory]
    rw [h0]
    congr 1
    exact ih _ _ _ (fun k hk => hagree (k + 1) (Nat.succ_lt_succ hk))

/-! ## Concrete fixtures -/

/-- The all-zero random stream (a legal `rand.Float64()` output sequence). -/
def rng0 : ℕ → ℚ := fun _ => 0

/-- The all-zero per-frame family of random streams. -/
def rngs0 : ℕ → ℕ → ℚ := fun _ _ => 0

/-- A one-particle state on a 10×10 screen, wind steady at `-0.8`, with the
particle close enough to the left edge that the wind drives its `x` below
`0` on the next frame. -/
def gLeft : Game := ⟨[⟨1/2, 0, 1, 1, 0, 0⟩], 10, 10, -4/5, -4/5, 5⟩

/-- A one-particle state on a 10×10 screen with in-bounds position and
nonnegative fall speed. -/
def gBox : Game := ⟨[⟨3, 2, 1, 1, 0, 0⟩], 10, 10, 0, 0, 5⟩

/-- A size-1 snowflake at the origin. -/
def fOne : Snowflake := ⟨0, 0, 1, 1, 0, 0⟩

/-- A size-4 snowflake at the origin. -/
def fFour : Snowflake := ⟨0, 0, 4, 1, 0, 0⟩

/-! ## Claims -/

/-- C1, as stated, is false on the code: the horizontal wrap sets an `x`
driven below `0` to exactly `screenWidth`, which lies outside the half-open
box `[0, screenWidth)`.  Concretely, from `gLeft` (particle at `x = 1/2`,
size `1`, steady wind `-0.8`) one `Update` produces `x = 10 = screenWidth`. -/
theorem C1_halfopen_counterexample :
    ¬ ∀ f ∈ (gLeft.update rng0).1.snowflakes,
        inOpenBox gLeft.screenWidth gLeft.screenHeight f := by
  norm_num [Game.update, moveFlakes, moveFlake, gLeft, rng0, inOpenBox]

/-- C1 (amended): after every run of `Update`'s wrap/reset logic the
positions lie in the closed box `[0, screenWidth] × [0, screenHeight]`
(the value `screenWidth` itself is attained by the left-edge wrap), given
nonnegative screen dimensions and particles entering the frame with
nonnegative `y` and nonnegative fall speed. -/
theorem C1_position_in_closed_box (g : Game) (rng : ℕ → ℚ)
    (hw : 0 ≤ g.screenWidth) (hh : 0 ≤ g.screenHeight)
    (hpre : ∀ f ∈ g.snowflakes, 0 ≤ f.y ∧ 0 ≤ f.speed) :
    ∀ f ∈ (g.update rng).1.snowflakes,
      inClosedBox g.screenWidth g.screenHeight f :=
  update_box g rng hw hh hpre

/-- Witness for C1 (amended) at the concrete state `gBox`. -/
theorem C1_position_in_closed_box_witness :
    (0 ≤ gBox.screenWidth ∧ 0 ≤ gBox.screenHeight ∧
      ∀ f ∈ gBox.snowflakes, 0 ≤ f.y ∧ 0 ≤ f.speed) ∧
    ∀ f ∈ (gBox.update rng0).1.snowflakes,
      inClosedBox gBox.screenWidth gBox.screenHeight f :=
  ⟨⟨by norm_num [gBox], by norm_num [gBox], by norm_num [gBox]⟩,
   C1_position_in_closed_box gBox rng0 (by norm_num [gBox])
     (by norm_num [gBox]) (by norm_num [gBox])⟩

/-- C2: one frame of `Update` preserves the closed bounds: if every
particle starts with `0 ≤ x ≤ width`, `0 ≤ y ≤ height` and nonnegative
fall speed, then after `Update` every particle satisfies `0 ≤ x ≤ width`
and `0 ≤ y ≤ height`. -/
theorem C2_closed_bounds_preserved (g : Game) (rng : ℕ → ℚ)
    (hpre : ∀ f ∈ g.snowflakes,
      inClosedBox g.screenWidth g.screenHeight f ∧ 0 ≤ f.speed) :
    ∀ f ∈ (g.update rng).1.snowflakes,
      inClosedBox g.screenWidth g.screenHeight f := by
  cases hgs : g.snowflakes with
  | nil =>
    intro f hf
    rw [update_snowflakes, hgs] at hf
    simp [moveFlakes] at hf
  | cons f0 fs0 =>
    have h0 := (hpre f0 (by rw [hgs]; exact List.mem_cons_self f0 fs0)).1
    have hw : 0 ≤ g.screenWidth := by
      have : (0 : ℚ) ≤ (g.screenWidth : ℚ) := le_trans h0.1 h0.2.1
      exact_mod_cast this
    have hh : 0 ≤ g.screenHeight := by
      have : (0 : ℚ) ≤ (g.screenHeight : ℚ) := le_trans h0.2.2.1 h0.2.2.2
      exact_mod_cast this
    exact update_box g rng hw hh
      (fun f hf => ⟨((hpre f hf).1).2.2.1, (hpre f hf).2⟩)

/-- Witness for C2 at the concrete state `gBox`. -/
theorem C2_closed_bounds_preserved_witness :
    (∀ f ∈ gBox.snowflakes,
      inClosedBox gBox.screenWidth gBox.screenHeight f ∧ 0 ≤ f.speed) ∧
    ∀ f ∈ (gBox.update rng0).1.snowflakes,
      inClosedBox gBox.screenWidth gBox.screenHeight f :=
  ⟨by norm_num [gBox, inClosedBox],
   C2_closed_bounds_preserved gBox rng0 (by norm_num [gBox, inClosedBox])⟩

/-- C3: `Draw` plots, per particle, a single pixel at the integer-truncated
position when the truncated size is `≤ 1`, and otherwise exactly the
offsets `(dx, dy)` with `dx*dx + dy*dy ≤ size*size/4` around the truncated
position (the loop bounds `[-size/2, size/2]` lose nothing); for size `4`
the offsets are exactly the disc `dx*dx + dy*dy ≤ 4` of radius `2`. -/
theorem C3_draw_characterization :
    (∀ f : Snowflake, goTrunc f.size ≤ 1 →
        drawFlake f = {(goTrunc f.x, goTrunc f.y)}) ∧
    (∀ f : Snowflake, 2 ≤ goTrunc f.size → ∀ q : ℤ × ℤ,
        q ∈ drawFlake f ↔
          ∃ d : ℤ × ℤ,
            d.1 * d.1 + d.2 * d.2 ≤ goTrunc f.size * goTrunc f.size / 4 ∧
            q = (goTrunc f.x + d.1, goTrunc f.y + d.2)) ∧
    (∀ d : ℤ × ℤ, d ∈ drawOffsets 4 ↔ d.1 * d.1 + d.2 * d.2 ≤ 4) := by
  refine ⟨?_, ?_, ?_⟩
  · intro f hf
    rw [drawFlake, drawOffsets, if_pos hf]
    simp
  · intro f hf q
    rw [drawFlake]
    simp only [Finset.mem_image]
    constructor
    · rintro ⟨d, hd, rfl⟩
      exact ⟨d, (mem_drawOffsets hf d).mp hd, rfl⟩
    · rintro ⟨d, hd, rfl⟩
      exact ⟨d, (mem_drawOffsets hf d).mpr hd, rfl⟩
  · intro d
    rw [mem_drawOffsets (by norm_num)]
    norm_num

/-- Witness for C3 at the size-1 flake `fOne`, the size-4 flake `fFour`,
and the boundary offset `(2, 0)` of the radius-2 disc. -/
theorem C3_draw_characterization_witness :
    (goTrunc fOne.size ≤ 1 ∧ drawFlake fOne = {(goTrunc fOne.x, goTrunc fOne.y)}) ∧
    (2 ≤ goTrunc fFour.size ∧
      (((0 : ℤ), (0 : ℤ)) ∈ drawFlake fFour ↔
        ∃ d : ℤ × ℤ,
          d.1 * d.1 + d.2 * d.2 ≤ goTrunc fFour.size * goTrunc fFour.size / 4 ∧
          ((0 : ℤ), (0 : ℤ)) = (goTrunc fFour.x + d.1, goTrunc fFour.y + d.2))) ∧
    (((2 : ℤ), (0 : ℤ)) ∈ drawOffsets 4 ↔ (2 : ℤ) * 2 + 0 * 0 ≤ 4) :=
  ⟨⟨by norm_num [fOne, goTrunc],
    C3_draw_characterization.1 fOne (by norm_num [fOne, goTrunc])⟩,
   ⟨by norm_num [fFour, goTrunc],
    C3_draw_characterization.2.1 fFour (by norm_num [fFour, goTrunc]) (0, 0)⟩,
   C3_draw_characterization.2.2 (2, 0)⟩

/-- C4: from `Initialize`, any number of `Update` steps driven by valid
random streams keeps both the target wind and the (low-pass filtered)
current wind inside `[-0.8, 0.8]`. -/
theorem C4_wind_bounded (w h : ℤ) (rngI : ℕ → ℚ) (rngs : ℕ → ℕ → ℚ)
    (n : ℕ) (hv : validRngs rngs) :
    windInv ((Game.initializeGame w h rngI).updateN rngs n) :=
  updateN_windInv n _ rngs hv (initialize_windInv w h rngI)

/-- Witness for C4 with the all-zero streams and one frame. -/
theorem C4_wind_bounded_witness :
    validRngs rngs0 ∧ windInv ((Game.initializeGame 10 10 rng0).updateN rngs0 1) :=
  ⟨fun _ _ => ⟨le_refl 0, by norm_num [rngs0]⟩,
   C4_wind_bounded 10 10 rng0 rngs0 1 (fun _ _ => ⟨le_refl 0, by norm_num [rngs0]⟩)⟩

/-- C5: each `Update` call performs the wind update exactly as specified —
countdown decremented by `1.0`; on `≤ 0` a new target `-0.8 + u₁·1.6`
(uniform in `[-0.8, 0.8]` for `u₁` uniform in `[0,1)`) and a new countdown
`60 + u₂·120` (uniform in `[60, 180)`); then
`current = current*0.99 + target*0.01` — and the particle loop runs with
the already-updated wind value (the new wind is set before any particle
moves). -/
theorem C5_wind_update_order (g : Game) (rng : ℕ → ℚ) :
    ((g.update rng).1.wind, (g.update rng).1.windTarget,
      (g.update rng).1.windChangeTime) =
      windSpecStep g.wind g.windTarget g.windChangeTime (rng 0) (rng 1) ∧
    (g.update rng).1.snowflakes =
      (moveFlakes g.screenWidth g.screenHeight (g.update rng).1.wind rng
        g.snowflakes (if g.windChangeTime - 1 ≤ 0 then 2 else 0)).1 := by
  refine ⟨?_, update_snowflakes g rng⟩
  simp only [Game.update, windSpecStep]
  split_ifs with hc
  · have ht : (rng 0 * 2 - 1) * 0.8 = -0.8 + rng 0 * 1.6 := by ring
    rw [ht]
  · rfl

/-- The per-particle guarantees of `Initialize`: size in `[1, 4)`, fall
speed in `[6, 16)`, position in `[0, w) × [0, h)`. -/
def flakeInitProps (w h : ℤ) (f : Snowflake) : Prop :=
  1 ≤ f.size ∧ f.size < 4 ∧ 6 ≤ f.speed ∧ f.speed < 16 ∧
  0 ≤ f.x ∧ f.x < (w : ℚ) ∧ 0 ≤ f.y ∧ f.y < (h : ℚ)

/-- C6: after `Initialize` with positive dimensions and a valid random
stream there are exactly `numSnowflakes = 300` particles, each with size in
`[1, 4)`, fall speed in `[6, 16)` and position in `[0, w) × [0, h)`, and
the wind state is zeroed. -/
theorem C6_initialize_props (w h : ℤ) (rng : ℕ → ℚ) (hw : 0 < w) (hh : 0 < h)
    (hr : validRng rng) :
    (Game.initializeGame w h rng).snowflakes.length = numSnowflakes ∧
    (Game.initializeGame w h rng).wind = 0 ∧
    (Game.initializeGame w h rng).windTarget = 0 ∧
    (Game.initializeGame w h rng).windChangeTime = 0 ∧
    ∀ f ∈ (Game.initializeGame w h rng).snowflakes, flakeInitProps w h f := by
  refine ⟨initialize_length w h rng, rfl, rfl, rfl, ?_⟩
  intro f hf
  simp only [Game.initializeGame, List.mem_map, List.mem_range] at hf
  obtain ⟨i, _, rfl⟩ := hf
  have hwq : (0 : ℚ) < (w : ℚ) := by exact_mod_cast hw
  have hhq : (0 : ℚ) < (h : ℚ) := by exact_mod_cast hh
  obtain ⟨h0a, h0b⟩ := hr (4 * i)
  obtain ⟨h1a, h1b⟩ := hr (4 * i + 1)
  obtain ⟨h2a, h2b⟩ := hr (4 * i + 2)
  obtain ⟨h3a, h3b⟩ := hr (4 * i + 3)
  have hx0 : 0 ≤ rng (4 * i) * (w : ℚ) := mul_nonneg h0a (le_of_lt hwq)
  have hx1 : rng (4 * i) * (w : ℚ) < (w : ℚ) := by
    nlinarith [mul_pos (show (0 : ℚ) < 1 - rng (4 * i) by linarith) hwq]
  have hy0 : 0 ≤ rng (4 * i + 1) * (h : ℚ) := mul_nonneg h1a (le_of_lt hhq)
  have hy1 : rng (4 * i + 1) * (h : ℚ) < (h : ℚ) := by
    nlinarith [mul_pos (show (0 : ℚ) < 1 - rng (4 * i + 1) by linarith) hhq]
  have hsz0 : 0 ≤ rng (4 * i + 2) * 3 := mul_nonneg h2a (by norm_num)
  have hsz1 : rng (4 * i + 2) * 3 < 3 := by linarith
  have hsp0 : 0 ≤ rng (4 * i + 3) * 10 := mul_nonneg h3a (by norm_num)
  have hsp1 : rng (4 * i + 3) * 10 < 10 := by linarith
  simp only [mkFlake, flakeInitProps]
  refine ⟨by linarith, by linarith, by linarith, by linarith,
    hx0, hx1, hy0, hy1⟩

/-- Witness for C6 on a 10×10 canvas with the all-zero stream. -/
theorem C6_initialize_props_witness :
    ((0 : ℤ) < 10 ∧ validRng rng0) ∧
    ((Game.initializeGame 10 10 rng0).snowflakes.length = numSnowflakes ∧
      (Game.initializeGame 10 10 rng0).wind = 0 ∧
      (Game.initializeGame 10 10 rng0).windTarget = 0 ∧
      (Game.initializeGame 10 10 rng0).windChangeTime = 0 ∧
      ∀ f ∈ (Game.initializeGame 10 10 rng0).snowflakes, flakeInitProps 10 10 f) :=
  ⟨⟨by norm_num, fun _ => ⟨le_refl 0, by norm_num [rng0]⟩⟩,
   C6_initialize_props 10 10 rng0 (by norm_num) (by norm_num)
     (fun _ => ⟨le_refl 0, by norm_num [rng0]⟩)⟩

/-- C7: `Update` mutates only positions and wind state — the particle count
is preserved and each particle keeps its size, fall speed and drift
(position-wise pairing via `List.Forall₂`); moreover, from `Initialize`,
any number of `Update` steps leaves exactly `numSnowflakes = 300` particles
and every drift field still `0`. -/
theorem C7_update_immutable_fields (g : Game) (rng : ℕ → ℚ) :
    (g.update rng).1.snowflakes.length = g.snowflakes.length ∧
    List.Forall₂
      (fun a b => b.size = a.size ∧ b.speed = a.speed ∧ b.drift = a.drift)
      g.snowflakes (g.update rng).1.snowflakes ∧
    ∀ (w h : ℤ) (rngI : ℕ → ℚ) (rngs : ℕ → ℕ → ℚ) (n : ℕ),
      ((Game.initializeGame w h rngI).updateN rngs n).snowflakes.length =
          numSnowflakes ∧
      ((Game.initializeGame w h rngI).updateN rngs n).snowflakes.map
          Snowflake.drift =
        List.replicate numSnowflakes 0 :=
  ⟨update_length g rng,
   by rw [update_snowflakes]; exact moveFlakes_forall₂ _ _ _ _ _ _,
   fun w h rngI rngs n =>
     ⟨by rw [updateN_length, initialize_length],
      by rw [updateN_map_drift, initialize_map_drift]⟩⟩

/-- C8, as stated, is false on the code: the repositioning call issued for
the previously-focused window carries flags
`SWP_NOMOVE|SWP_NOSIZE|SWP_SHOWWINDOW` — it does NOT set `SWP_NOACTIVATE`.
Concretely, with the render window found as handle `5` and foreground
handle `7`, no issued call for window `7` has the no-activate bit. -/
theorem C8_noactivate_counterexample :
    ¬ ∃ c ∈ setWindowToBottom 5 0 7,
        c.hwnd = 7 ∧ c.flags &&& SWP_NOACTIVATE ≠ 0 := by
  decide

/-- C8 (amended): on every tick where the render window is found and the
previously-focused window is nonzero and differs from it, the daemon
issues exactly one repositioning call for that window, with insert-after
reference `0` and flags that forbid moving and resizing and force showing,
but WITHOUT the no-activate flag. -/
theorem C8_restore_call (byTitle byClass fg : ℕ)
    (hfound : (if byTitle ≠ 0 then byTitle else byClass) ≠ 0)
    (hfg : fg ≠ 0) (hne : fg ≠ if byTitle ≠ 0 then byTitle else byClass) :
    setWindowToBottom byTitle byClass fg =
      [⟨if byTitle ≠ 0 then byTitle else byClass, HWND_BOTTOM,
          SWP_NOMOVE ||| SWP_NOSIZE ||| SWP_NOACTIVATE ||| SWP_SHOWWINDOW⟩,
       ⟨fg, 0, SWP_NOMOVE ||| SWP_NOSIZE ||| SWP_SHOWWINDOW⟩] ∧
    (SWP_NOMOVE ||| SWP_NOSIZE ||| SWP_SHOWWINDOW) &&& SWP_NOMOVE ≠ 0 ∧
    (SWP_NOMOVE ||| SWP_NOSIZE ||| SWP_SHOWWINDOW) &&& SWP_NOSIZE ≠ 0 ∧
    (SWP_NOMOVE ||| SWP_NOSIZE ||| SWP_SHOWWINDOW) &&& SWP_SHOWWINDOW ≠ 0 ∧
    (SWP_NOMOVE ||| SWP_NOSIZE ||| SWP_SHOWWINDOW) &&& SWP_NOACTIVATE = 0 := by
  refine ⟨?_, by decide, by decide, by decide, by decide⟩
  simp only [setWindowToBottom]
  rw [if_neg (by simpa using hfound), if_pos ⟨hfg, hne⟩]

/-- Witness for C8 (amended) with the render window at handle `5` (found by
title) and foreground handle `7`. -/
theorem C8_restore_call_witness :
    ((if (5 : ℕ) ≠ 0 then (5 : ℕ) else 0) ≠ 0 ∧ (7 : ℕ) ≠ 0 ∧
      (7 : ℕ) ≠ if (5 : ℕ) ≠ 0 then (5 : ℕ) else 0) ∧
    (setWindowToBottom 5 0 7 =
      [⟨if (5 : ℕ) ≠ 0 then (5 : ℕ) else 0, HWND_BOTTOM,
          SWP_NOMOVE ||| SWP_NOSIZE ||| SWP_NOACTIVATE ||| SWP_SHOWWINDOW⟩,
       ⟨7, 0, SWP_NOMOVE ||| SWP_NOSIZE ||| SWP_SHOWWINDOW⟩] ∧
    (SWP_NOMOVE ||| SWP_NOSIZE ||| SWP_SHOWWINDOW) &&& SWP_NOMOVE ≠ 0 ∧
    (SWP_NOMOVE ||| SWP_NOSIZE ||| SWP_SHOWWINDOW) &&& SWP_NOSIZE ≠ 0 ∧
    (SWP_NOMOVE ||| SWP_NOSIZE ||| SWP_SHOWWINDOW) &&& SWP_SHOWWINDOW ≠ 0 ∧
    (SWP_NOMOVE ||| SWP_NOSIZE ||| SWP_SHOWWINDOW) &&& SWP_NOACTIVATE = 0) :=
  ⟨⟨by decide, by decide, by decide⟩,
   C8_restore_call 5 0 7 (by decide) (by decide) (by decide)⟩

/-- C9: the simulation is deterministic in its random source — two runs of
`Initialize` followed by `n` `Update` calls whose per-frame random streams
agree on the frames actually run produce the identical sequence of states
(hence identical particle trajectories). -/
theorem C9_deterministic (w h : ℤ) (rngI : ℕ → ℚ)
    (rngs1 rngs2 : ℕ → ℕ → ℚ) (n : ℕ)
    (hagree : ∀ k, k < n → rngs1 k = rngs2 k) :
    (Game.initializeGame w h rngI).trajectory rngs1 n =
      (Game.initializeGame w h rngI).trajectory rngs2 n :=
  trajectory_congr n _ rngs1 rngs2 hagree

/-- Witness for C9 with the all-zero streams over two frames. -/
theorem C9_deterministic_witness :
    (∀ k, k < 2 → rngs0 k = rngs0 k) ∧
    (Game.initializeGame 10 10 rng0).trajectory rngs0 2 =
      (Game.initializeGame 10 10 rng0).trajectory rngs0 2 :=
  ⟨fun _ _ => rfl, C9_deterministic 10 10 rng0 rngs0 rngs0 2 (fun _ _ => rfl)⟩

/-- C10: `Update` never reports an error — the error component of every
call is `nil` (`none`), for every state and every random stream. -/
theorem C10_update_no_error (g : Game) (rng : ℕ → ℚ) :
    (g.update rng).2 = none := rfl
